import Mathlib

/-!
Verification of the `env_edge_gateway_rpi` store-and-forward gateway.

This development embeds the core of the Rust sources as executable Lean
definitions and proves the specified properties about them:

* `src/services/edge_processor.rs` — the enrichment pipeline (quality
  assessment, comfort level, heat index).  Numeric values are modelled by
  exact rationals; because the code branches on `is_nan`/`is_infinite`,
  sensor values are embedded as `FVal`, the classification of an `f32`
  into a finite value, a NaN, or a signed infinity.
* `src/database.rs` — the durable queue over SQLite.  A database is a
  list of rows; the transactional batch insert, the pending query
  (`WHERE synced = 0 ORDER BY gateway_timestamp ASC LIMIT ?`), the
  mark-as-synced update and the retention purge are translated
  statement by statement.
* `src/services/cloud_sync.rs` — one synchronisation cycle
  (`sync_data`) on the per-message MQTT transport, with per-message
  dispatch outcomes supplied by an oracle.
* `src/handlers/health.rs` — the health endpoint.
-/

namespace EnvEdgeGateway

/-! ## Sensor values

The Rust code stores metric values as `f32` and observes them through
`is_nan`, `is_infinite` and order comparisons.  `FVal` embeds exactly that
classification: a finite value is carried as an exact rational. -/

inductive FVal where
  | finite (q : ℚ)
  | nan
  | posInf
  | negInf
deriving DecidableEq

/-- `f32::is_nan`. -/
def FVal.isNan : FVal → Bool
  | .nan => true
  | _ => false

/-- `f32::is_infinite`. -/
def FVal.isInfinite : FVal → Bool
  | .posInf => true
  | .negInf => true
  | _ => false

/-! ## Data model (`src/models.rs`) -/

/-- `SensorMetric`: one named measurement. -/
structure SensorMetric where
  measurement : String
  value : FVal
deriving DecidableEq

/-- `SensorHeader`: device metadata attached to a reading. -/
structure SensorHeader where
  userUuid : Option String
  deviceId : String
  location : String
  topic : String
  shouldRequeue : Bool
deriving DecidableEq

/-- `SensorDataInput`: one raw reading as ingested. -/
structure SensorDataInput where
  header : SensorHeader
  metrics : List SensorMetric
deriving DecidableEq

/-- `ComputedMetrics`: metrics derived by the edge processor.  Only the
`is_anomaly` flag is inspected by the quality assessment. -/
structure ComputedMetrics where
  heatIndex : Option ℚ
  dewPoint : Option ℚ
  comfortLevel : Option ℚ
  isAnomaly : Bool
  stats : List (String × ℚ)
deriving DecidableEq

/-- `DataQuality`: the quality block attached to a processed record.  The
score is a `u8` that starts at 100 and only ever shrinks by
`saturating_sub`, which coincides with truncated subtraction on `ℕ`. -/
structure DataQuality where
  score : ℕ
  issues : List String
  corrected : Bool
deriving DecidableEq

/-! ## Edge processor (`src/services/edge_processor.rs`) -/

/-- One step of the NaN/infinity scan inside `assess_quality`: for each
metric the code subtracts 30 and records an issue if the value is NaN, and
again if the value is infinite. -/
def qualityMetricStep (si : ℕ × List String) (m : SensorMetric) : ℕ × List String :=
  let si1 :=
    if m.value.isNan then
      (si.1 - 30, si.2 ++ ["Valor NaN en métrica: " ++ m.measurement])
    else si
  if m.value.isInfinite then
    (si1.1 - 30, si1.2 ++ ["Valor infinito en métrica: " ++ m.measurement])
  else si1

/-- `EdgeProcessor::assess_quality`, translated clause by clause.  The
score starts at `100u8`; every deduction is a `saturating_sub` (truncated
subtraction on `ℕ`) paired with one pushed issue string. -/
def assess_quality (input : SensorDataInput) (computed : ComputedMetrics) : DataQuality :=
  let s0 : ℕ × List String := (100, [])
  let s1 :=
    if input.metrics.isEmpty then
      (s0.1 - 50, s0.2 ++ ["No hay métricas en el mensaje"])
    else s0
  let s2 :=
    if computed.isAnomaly then
      (s1.1 - 25, s1.2 ++ ["Lectura anómala detectada"])
    else s1
  let s3 := input.metrics.foldl qualityMetricStep s2
  let s4 :=
    if input.header.location.trim.isEmpty then
      (s3.1 - 10, s3.2 ++ ["Ubicación vacía o inválida"])
    else s3
  { score := s4.1, issues := s4.2, corrected := false }

/-- Number of metrics whose value is NaN. -/
def nanCount (ms : List SensorMetric) : ℕ :=
  (ms.filter (fun m => m.value.isNan)).length

/-- Number of metrics whose value is infinite. -/
def infCount (ms : List SensorMetric) : ℕ :=
  (ms.filter (fun m => m.value.isInfinite)).length

/-- The total deduction that `assess_quality` applies: −50 for an empty
metric set, −25 for a flagged anomaly, −30 per NaN metric, −30 per
infinite metric, −10 for a blank location. -/
def totalDeduction (input : SensorDataInput) (computed : ComputedMetrics) : ℕ :=
  (if input.metrics.isEmpty then 50 else 0) +
    (if computed.isAnomaly then 25 else 0) +
    (30 * nanCount input.metrics + 30 * infCount input.metrics) +
    (if input.header.location.trim.isEmpty then 10 else 0)

/-- Number of deduction conditions met, i.e. of issue strings pushed. -/
def deductionCount (input : SensorDataInput) (computed : ComputedMetrics) : ℕ :=
  (if input.metrics.isEmpty then 1 else 0) +
    (if computed.isAnomaly then 1 else 0) +
    (nanCount input.metrics + infCount input.metrics) +
    (if input.header.location.trim.isEmpty then 1 else 0)

lemma qualityMetricStep_fst (si : ℕ × List String) (m : SensorMetric) :
    (qualityMetricStep si m).1 =
      si.1 - ((if m.value.isNan then 30 else 0) + (if m.value.isInfinite then 30 else 0)) := by
  cases h : m.value <;>
    simp [qualityMetricStep, FVal.isNan, FVal.isInfinite, h, Nat.sub_sub]

lemma qualityMetricStep_snd_length (si : ℕ × List String) (m : SensorMetric) :
    (qualityMetricStep si m).2.length =
      si.2.length + ((if m.value.isNan then 1 else 0) + (if m.value.isInfinite then 1 else 0)) := by
  cases h : m.value <;>
    simp [qualityMetricStep, FVal.isNan, FVal.isInfinite, h]

lemma nanCount_cons (m : SensorMetric) (ms : List SensorMetric) :
    nanCount (m :: ms) = (if m.value.isNan then 1 else 0) + nanCount ms := by
  by_cases h : m.value.isNan <;> simp [nanCount, h, Nat.add_comm]

lemma infCount_cons (m : SensorMetric) (ms : List SensorMetric) :
    infCount (m :: ms) = (if m.value.isInfinite then 1 else 0) + infCount ms := by
  by_cases h : m.value.isInfinite <;> simp [infCount, h, Nat.add_comm]

lemma foldl_qualityMetricStep_fst (ms : List SensorMetric) (si : ℕ × List String) :
    (ms.foldl qualityMetricStep si).1 = si.1 - (30 * nanCount ms + 30 * infCount ms) := by
  induction ms generalizing si with
  | nil => simp [nanCount, infCount]
  | cons m ms ih =>
    rw [List.foldl_cons, ih, qualityMetricStep_fst, nanCount_cons, infCount_cons]
    by_cases h1 : m.value.isNan <;> by_cases h2 : m.value.isInfinite <;>
      simp [h1, h2] <;> omega

lemma foldl_qualityMetricStep_len (ms : List SensorMetric) (si : ℕ × List String) :
    (ms.foldl qualityMetricStep si).2.length = si.2.length + (nanCount ms + infCount ms) := by
  induction ms generalizing si with
  | nil => simp [nanCount, infCount]
  | cons m ms ih =>
    rw [List.foldl_cons, ih, qualityMetricStep_snd_length, nanCount_cons, infCount_cons]
    by_cases h1 : m.value.isNan <;> by_cases h2 : m.value.isInfinite <;>
      simp [h1, h2] <;> omega

/-- C7: for every input reading the quality score is 100 minus the sum of
the applicable deductions (empty metric set −50, anomaly −25, each NaN
metric −30, each infinite metric −30, blank location −10), with truncated
subtraction saturating at 0 so the score is never negative; exactly one
issue string is appended per deduction taken; and the corrected flag is
always false. -/
theorem assess_quality_score_issues_corrected
    (input : SensorDataInput) (computed : ComputedMetrics) :
    (assess_quality input computed).score = 100 - totalDeduction input computed ∧
      (assess_quality input computed).issues.length = deductionCount input computed ∧
      (assess_quality input computed).corrected = false := by
  refine ⟨?_, ?_, rfl⟩
  · unfold assess_quality totalDeduction
    by_cases h1 : input.metrics.isEmpty <;>
      by_cases h2 : computed.isAnomaly <;>
        by_cases h3 : input.header.location.trim.isEmpty <;>
          simp [h1, h2, h3, foldl_qualityMetricStep_fst] <;> omega
  · unfold assess_quality deductionCount
    by_cases h1 : input.metrics.isEmpty <;>
      by_cases h2 : computed.isAnomaly <;>
        by_cases h3 : input.header.location.trim.isEmpty <;>
          simp [h1, h2, h3, foldl_qualityMetricStep_len] <;> omega

/-- The temperature sub-score of `EdgeProcessor::calculate_comfort_level`:
100 inside [20,24] °C, `80 − |t−22|·10` inside [18,26], and
`50 − |t−22|·5` outside. -/
def tempScore (temp_c : ℚ) : ℚ :=
  if 20 ≤ temp_c ∧ temp_c ≤ 24 then 100
  else if 18 ≤ temp_c ∧ temp_c ≤ 26 then 80 - |temp_c - 22| * 10
  else 50 - |temp_c - 22| * 5

/-- The humidity sub-score of `EdgeProcessor::calculate_comfort_level`:
100 inside [40,60] %, `80 − |h−50|` inside [30,70], and
`50 − |h−50|·0.5` outside. -/
def humidityScore (humidity : ℚ) : ℚ :=
  if 40 ≤ humidity ∧ humidity ≤ 60 then 100
  else if 30 ≤ humidity ∧ humidity ≤ 70 then 80 - |humidity - 50|
  else 50 - |humidity - 50| * (5 / 10)

/-- `EdgeProcessor::calculate_comfort_level`: the weighted combination
`temp_score * 0.6 + humidity_score * 0.4`, clamped by `.max(0.0).min(100.0)`. -/
def calculate_comfort_level (temp_c humidity : ℚ) : ℚ :=
  min (max (tempScore temp_c * (6 / 10) + humidityScore humidity * (4 / 10)) 0) 100

/-- C8: for every pair of finite temperature and humidity inputs, the
comfort level lies in [0,100] and equals the weighted combination
`0.6·tempScore + 0.4·humidityScore` clamped to that interval. -/
theorem comfort_level_bounds (temp_c humidity : ℚ) :
    0 ≤ calculate_comfort_level temp_c humidity ∧
      calculate_comfort_level temp_c humidity ≤ 100 ∧
      calculate_comfort_level temp_c humidity =
        min (max (tempScore temp_c * (6 / 10) + humidityScore humidity * (4 / 10)) 0) 100 := by
  refine ⟨?_, ?_, rfl⟩
  · exact le_min (le_max_right _ _) (by norm_num)
  · exact min_le_right _ _

/-- `EdgeProcessor::calculate_heat_index` on finite inputs: convert to
Fahrenheit; below 80 °F return the input temperature unchanged; otherwise
evaluate the nine-term Rothfusz regression and convert back to Celsius. -/
def calculate_heat_index (temp_c humidity : ℚ) : ℚ :=
  let temp_f := temp_c * 9 / 5 + 32
  if temp_f < 80 then temp_c
  else
    let t := temp_f
    let rh := humidity
    let hi := -42.379 + 2.04901523 * t + 10.14333127 * rh
      - 0.22475541 * t * rh
      - 0.00683783 * t * t
      - 0.05481717 * rh * rh
      + 0.00122874 * t * t * rh
      + 0.00085282 * t * rh * rh
      - 0.00000199 * t * t * rh * rh
    (hi - 32) * 5 / 9

/-! ## Durable queue (`src/database.rs`)

One row of the `sensor_readings` table.  The `TEXT PRIMARY KEY` id is
modelled by `ℕ` (UUIDs are opaque identifiers), and the two `TEXT`
timestamp columns by `ℤ` (RFC 3339 strings of UTC instants compare
lexicographically exactly as instants compare).  The JSON payload columns
are carried as opaque strings. -/

structure SensorRow where
  id : ℕ
  deviceId : String
  location : String
  topic : String
  shouldRequeue : Bool
  gatewayTimestamp : ℤ
  metricsJson : String
  computedJson : String
  qualityScore : ℤ
  qualityIssues : String
  qualityCorrected : Bool
  metricsCount : ℤ
  measurementTypes : String
  synced : Bool
  syncAttempts : ℕ
  lastSyncAttempt : Option ℤ
  createdAt : ℤ
deriving DecidableEq

/-- The database state: the `sensor_readings` table in insertion order. -/
abbrev Db := List SensorRow

/-- The thirteen columns that `insert_reading` / `insert_batch` bind
explicitly; the remaining columns take their schema defaults. -/
structure RowInput where
  id : ℕ
  deviceId : String
  location : String
  topic : String
  shouldRequeue : Bool
  gatewayTimestamp : ℤ
  metricsJson : String
  computedJson : String
  qualityScore : ℤ
  qualityIssues : String
  qualityCorrected : Bool
  metricsCount : ℤ
  measurementTypes : String
deriving DecidableEq

/-- The row produced by an `INSERT` of the thirteen explicit columns: the
schema defaults `synced = 0`, `sync_attempts = 0`, `last_sync_attempt =
NULL` and `created_at = CURRENT_TIMESTAMP` fill the rest. -/
def RowInput.toRow (x : RowInput) (now : ℤ) : SensorRow :=
  { id := x.id, deviceId := x.deviceId, location := x.location, topic := x.topic,
    shouldRequeue := x.shouldRequeue, gatewayTimestamp := x.gatewayTimestamp,
    metricsJson := x.metricsJson, computedJson := x.computedJson,
    qualityScore := x.qualityScore, qualityIssues := x.qualityIssues,
    qualityCorrected := x.qualityCorrected, metricsCount := x.metricsCount,
    measurementTypes := x.measurementTypes,
    synced := false, syncAttempts := 0, lastSyncAttempt := none, createdAt := now }

/-- The ids present in the table (`id` is the primary key, so on every
reachable state this list is duplicate-free). -/
def rowIds (db : Db) : List ℕ := db.map (·.id)

/-- One `INSERT` statement.  It fails — `sqlx` returns `Err`, aborting the
enclosing transaction — when the primary key is already taken or when the
persistence layer rejects the write (`persistOk` is the oracle for
failures such as an unavailable store). -/
def insertRowStmt (persistOk : RowInput → Bool) (now : ℤ) (db : Db) (x : RowInput) :
    Except Unit Db :=
  if persistOk x ∧ x.id ∉ rowIds db then .ok (db ++ [x.toRow now]) else .error ()

/-- The body of `Database::insert_batch`: the statements run one by one
inside the transaction; the first failure aborts via `?`. -/
def insertBatchAux (persistOk : RowInput → Bool) (now : ℤ) :
    List RowInput → Db → Except Unit Db
  | [], db => .ok db
  | x :: xs, db =>
    match insertRowStmt persistOk now db x with
    | .ok db2 => insertBatchAux persistOk now xs db2
    | .error e => .error e

/-- `Database::insert_batch` with its transaction semantics: on success
the whole batch commits; on any failure the transaction rolls back and
the externally visible state is the caller's unchanged database.  The
boolean is the `Result` returned to the caller. -/
def insert_batch (persistOk : RowInput → Bool) (now : ℤ) (xs : List RowInput) (db : Db) :
    Db × Bool :=
  match insertBatchAux persistOk now xs db with
  | .ok db2 => (db2, true)
  | .error _ => (db, false)

/-- `Database::insert_reading`: a single `INSERT` outside any explicit
transaction (one statement is atomic on its own). -/
def insert_reading (persistOk : RowInput → Bool) (now : ℤ) (x : RowInput) (db : Db) :
    Db × Bool :=
  match insertRowStmt persistOk now db x with
  | .ok db2 => (db2, true)
  | .error _ => (db, false)

/-- The `ORDER BY gateway_timestamp ASC` comparison. -/
def tsLe (a b : SensorRow) : Prop := a.gatewayTimestamp ≤ b.gatewayTimestamp

instance : DecidableRel tsLe := fun a b => inferInstanceAs (Decidable (_ ≤ _))

instance : IsTotal SensorRow tsLe := ⟨fun a b => le_total a.gatewayTimestamp b.gatewayTimestamp⟩

instance : IsTrans SensorRow tsLe := ⟨fun _ _ _ => le_trans⟩

/-- `Database::get_pending_sync`:
`SELECT * FROM sensor_readings WHERE synced = 0 ORDER BY gateway_timestamp
ASC LIMIT ?`.  The sort models `ORDER BY`: the result is a permutation of
the pending rows that is sorted by gateway timestamp. -/
def get_pending_sync (limit : ℕ) (db : Db) : List SensorRow :=
  (List.insertionSort tsLe (db.filter (fun r => !r.synced))).take limit

/-- `Database::count_pending_sync`: `SELECT COUNT(*) ... WHERE synced = 0`. -/
def count_pending_sync (db : Db) : ℕ :=
  (db.filter (fun r => !r.synced)).length

/-- The effect of one `UPDATE sensor_readings SET synced = 1,
last_sync_attempt = CURRENT_TIMESTAMP WHERE id = ?` on one row. -/
def markRow (ids : List ℕ) (now : ℤ) (r : SensorRow) : SensorRow :=
  if r.id ∈ ids then { r with synced := true, lastSyncAttempt := some now } else r

/-- `Database::mark_as_synced`: one `UPDATE ... WHERE id = ?` per given id,
inside one transaction.  `now` is the transaction's `CURRENT_TIMESTAMP`. -/
def mark_as_synced (ids : List ℕ) (now : ℤ) (db : Db) : Db :=
  db.map (markRow ids now)

/-- `Database::cleanup_old_synced`: `DELETE FROM sensor_readings WHERE
synced = 1 AND datetime(gateway_timestamp) < datetime('now', '-N days')`.
The cutoff is `now` minus `days` days; the second component is
`rows_affected()`. -/
def cleanup_old_synced (nowT : ℤ) (days : ℤ) (db : Db) : Db × ℕ :=
  let cutoff := nowT - days * 86400
  let keep := db.filter (fun r => !(r.synced && decide (r.gatewayTimestamp < cutoff)))
  (keep, db.length - keep.length)

/-! ## Basic facts about the queue operations -/

lemma mem_get_pending_sync {limit : ℕ} {db : Db} {r : SensorRow}
    (h : r ∈ get_pending_sync limit db) : r ∈ db ∧ r.synced = false := by
  have h1 : r ∈ List.insertionSort tsLe (db.filter (fun r => !r.synced)) :=
    List.mem_of_mem_take h
  have h2 : r ∈ db.filter (fun r => !r.synced) :=
    (List.perm_insertionSort tsLe _).mem_iff.mp h1
  have h3 := List.mem_filter.mp h2
  exact ⟨h3.1, by simpa using h3.2⟩

lemma get_pending_sync_sorted (limit : ℕ) (db : Db) :
    List.Sorted tsLe (get_pending_sync limit db) :=
  List.Pairwise.sublist (List.take_sublist _ _) (List.sorted_insertionSort tsLe _)

lemma get_pending_sync_length (limit : ℕ) (db : Db) :
    (get_pending_sync limit db).length ≤ limit := by
  simpa [get_pending_sync] using List.length_take_le limit _

lemma get_pending_sync_ids_nodup {db : Db} (h : (rowIds db).Nodup) (limit : ℕ) :
    ((get_pending_sync limit db).map (·.id)).Nodup := by
  have hfil : ((db.filter (fun r => !r.synced)).map (·.id)).Nodup :=
    List.Nodup.sublist (List.Sublist.map _ (List.filter_sublist db)) h
  have hsort : ((List.insertionSort tsLe (db.filter (fun r => !r.synced))).map (·.id)).Nodup :=
    (((List.perm_insertionSort tsLe _).map (·.id)).nodup_iff).mpr hfil
  exact List.Nodup.sublist (List.Sublist.map _ (List.take_sublist _ _)) hsort

/-- Shape of a successful transactional batch insert: every statement
succeeded, so the commit appends exactly the batch rows in order. -/
lemma insertBatchAux_ok {persistOk : RowInput → Bool} {now : ℤ} :
    ∀ {xs : List RowInput} {db db2 : Db},
      insertBatchAux persistOk now xs db = .ok db2 → db2 = db ++ xs.map (·.toRow now)
  | [], db, db2 => by
    intro h
    simp only [insertBatchAux] at h
    cases h
    simp
  | x :: xs, db, db2 => by
    intro h
    simp only [insertBatchAux, insertRowStmt] at h
    by_cases hc : persistOk x ∧ x.id ∉ rowIds db
    · rw [if_pos hc] at h
      have := insertBatchAux_ok h
      simp [this]
    · rw [if_neg hc] at h
      cases h

/-- C4: batch append is atomic.  On success the whole batch is appended
and every batch row is visible; on failure the externally visible store is
exactly the caller's unchanged database, and in particular no batch row
whose id was not already present appears in any subsequent pending
result. -/
theorem insert_batch_atomic (persistOk : RowInput → Bool) (now : ℤ)
    (xs : List RowInput) (db : Db) :
    ((insert_batch persistOk now xs db).2 = true →
      (insert_batch persistOk now xs db).1 = db ++ xs.map (·.toRow now) ∧
        ∀ x ∈ xs, x.toRow now ∈ (insert_batch persistOk now xs db).1) ∧
    ((insert_batch persistOk now xs db).2 = false →
      (insert_batch persistOk now xs db).1 = db ∧
        ∀ x ∈ xs, x.id ∉ rowIds db → ∀ limit : ℕ,
          x.id ∉ (get_pending_sync limit (insert_batch persistOk now xs db).1).map (·.id)) := by
  unfold insert_batch
  cases haux : insertBatchAux persistOk now xs db with
  | ok db2 =>
    constructor
    · intro _
      constructor
      · exact insertBatchAux_ok haux
      · intro x hx
        rw [insertBatchAux_ok haux]
        exact List.mem_append_right _ (List.mem_map_of_mem _ hx)
    · intro hcontra
      simp at hcontra
  | error e =>
    constructor
    · intro hcontra
      simp at hcontra
    · intro _
      constructor
      · rfl
      · intro x _ hxid limit hmem
        obtain ⟨r, hr, hrid⟩ := List.mem_map.mp hmem
        exact hxid (hrid ▸ List.mem_map_of_mem _ (mem_get_pending_sync hr).1)

/-- C5: the retention purge deletes exactly the synced rows strictly older
than the cutoff (`now` minus `days` days); every pending row, regardless
of its age, survives unchanged. -/
theorem cleanup_old_synced_contract (nowT days : ℤ) (db : Db) (r : SensorRow) :
    (r ∈ (cleanup_old_synced nowT days db).1 ↔
      r ∈ db ∧ ¬(r.synced = true ∧ r.gatewayTimestamp < nowT - days * 86400)) ∧
    (r ∈ db → r.synced = false → r ∈ (cleanup_old_synced nowT days db).1) := by
  constructor
  · simp only [cleanup_old_synced, List.mem_filter]
    by_cases hs : r.synced <;> simp [hs] <;> tauto
  · intro hr hsy
    simp [cleanup_old_synced, List.mem_filter, hr, hsy]

/-- A sample row used to instantiate the theorems at concrete inputs. -/
def mkRow (i : ℕ) (ts : ℤ) (sy : Bool) (lsa : Option ℤ) : SensorRow :=
  { id := i, deviceId := "dev", location := "room", topic := "sensors", shouldRequeue := false,
    gatewayTimestamp := ts, metricsJson := "mj", computedJson := "cj", qualityScore := 100,
    qualityIssues := "qi", qualityCorrected := false, metricsCount := 1,
    measurementTypes := "Temperature", synced := sy, syncAttempts := 0, lastSyncAttempt := lsa,
    createdAt := 0 }

/-- A sample insert payload used to instantiate the theorems. -/
def mkInput (i : ℕ) (ts : ℤ) : RowInput :=
  { id := i, deviceId := "dev", location := "room", topic := "sensors", shouldRequeue := false,
    gatewayTimestamp := ts, metricsJson := "mj", computedJson := "cj", qualityScore := 100,
    qualityIssues := "qi", qualityCorrected := false, metricsCount := 1,
    measurementTypes := "Temperature" }

/-- Witness for C4 at concrete inputs: a batch whose second row reuses the
first row's id fails the primary-key check and leaves the store unchanged,
while a fresh two-row batch commits whole. -/
theorem insert_batch_atomic_witness :
    (insert_batch (fun _ => true) 9 [mkInput 3 1, mkInput 3 2] [mkRow 7 0 false none]).1 =
        [mkRow 7 0 false none] ∧
      (insert_batch (fun _ => true) 9 [mkInput 3 1, mkInput 4 2] [mkRow 7 0 false none]).1 =
        [mkRow 7 0 false none] ++ [(mkInput 3 1).toRow 9, (mkInput 4 2).toRow 9] :=
  ⟨((insert_batch_atomic (fun _ => true) 9 [mkInput 3 1, mkInput 3 2]
      [mkRow 7 0 false none]).2 (by decide)).1,
    by
      have h := ((insert_batch_atomic (fun _ => true) 9 [mkInput 3 1, mkInput 4 2]
        [mkRow 7 0 false none]).1 (by decide)).1
      simpa using h⟩

/-- Witness for C5 at concrete inputs: a pending row far older than the
cutoff survives the purge, while an old synced row is deleted. -/
theorem cleanup_old_synced_witness :
    mkRow 1 (-1000000) false none ∈
        (cleanup_old_synced 0 1 [mkRow 1 (-1000000) false none, mkRow 2 (-1000000) true none]).1 ∧
      ¬(mkRow 2 (-1000000) true none ∈
        (cleanup_old_synced 0 1 [mkRow 1 (-1000000) false none, mkRow 2 (-1000000) true none]).1) :=
  ⟨(cleanup_old_synced_contract 0 1
      [mkRow 1 (-1000000) false none, mkRow 2 (-1000000) true none]
      (mkRow 1 (-1000000) false none)).2 (by decide) (by decide),
    fun hmem =>
      by
        have h := (cleanup_old_synced_contract 0 1
          [mkRow 1 (-1000000) false none, mkRow 2 (-1000000) true none]
          (mkRow 2 (-1000000) true none)).1.mp hmem
        revert h
        decide⟩

/-! ## Mark-as-synced: idempotence up to the attempt timestamp (C3) -/

/-- Counterexample to C3 as stated: `mark_as_synced` also executes
`SET last_sync_attempt = CURRENT_TIMESTAMP`, so re-marking an
already-synced id at a later wall-clock time is not a no-op — the
`last_sync_attempt` field changes, and applying the operation twice does
not leave the store in the state one application left it in. -/
theorem mark_as_synced_not_strictly_idempotent :
    mark_as_synced [0] 1 (mark_as_synced [0] 0 [mkRow 0 5 false none]) ≠
        mark_as_synced [0] 0 [mkRow 0 5 false none] ∧
      mark_as_synced [0] 1 [mkRow 0 5 true (some 0)] ≠ [mkRow 0 5 true (some 0)] := by
  decide

lemma markRow_idem (ids : List ℕ) (now : ℤ) (r : SensorRow) :
    markRow ids now (markRow ids now r) = markRow ids now r := by
  by_cases h : r.id ∈ ids <;> simp [markRow, h]

/-- C3 amended: at a fixed `CURRENT_TIMESTAMP`, `mark_as_synced` is
idempotent (applying it twice to the same id set equals applying it once);
marking an already-synced id is a successful no-op on every field except
`last_sync_attempt`, which is overwritten with the current timestamp; and
rows whose id is not in the set are completely untouched. -/
theorem mark_as_synced_idempotent_amended :
    (∀ (ids : List ℕ) (now : ℤ) (db : Db),
      mark_as_synced ids now (mark_as_synced ids now db) = mark_as_synced ids now db) ∧
    (∀ (ids : List ℕ) (now : ℤ) (r : SensorRow), r.synced = true → r.id ∈ ids →
      markRow ids now r = { r with lastSyncAttempt := some now }) ∧
    (∀ (ids : List ℕ) (now : ℤ) (r : SensorRow), r.id ∉ ids → markRow ids now r = r) := by
  refine ⟨fun ids now db => ?_, fun ids now r hsy hid => ?_, fun ids now r hid => ?_⟩
  · unfold mark_as_synced
    rw [List.map_map]
    exact List.map_congr_left fun r _ => markRow_idem ids now r
  · cases r
    simp_all [markRow]
  · simp [markRow, hid]

/-- Witness for the amended C3 at concrete inputs. -/
theorem mark_as_synced_idempotent_amended_witness :
    mark_as_synced [0] 4 (mark_as_synced [0] 4 [mkRow 0 5 false none]) =
        mark_as_synced [0] 4 [mkRow 0 5 false none] ∧
      markRow [0] 4 (mkRow 0 5 true (some 1)) =
        { mkRow 0 5 true (some 1) with lastSyncAttempt := some 4 } ∧
      markRow [0] 4 (mkRow 3 5 false none) = mkRow 3 5 false none :=
  ⟨mark_as_synced_idempotent_amended.1 [0] 4 [mkRow 0 5 false none],
    mark_as_synced_idempotent_amended.2.1 [0] 4 (mkRow 0 5 true (some 1)) (by decide) (by decide),
    mark_as_synced_idempotent_amended.2.2 [0] 4 (mkRow 3 5 false none) (by decide)⟩

/-! ## The database mutations as a transition system

Used for the trace parts of C2 and C9: every state change of the
`sensor_readings` table in the program goes through `insert_reading`
(HTTP single ingest, MQTT single message), `insert_batch` (HTTP batch,
MQTT batch), `mark_as_synced` (cloud synchroniser) or
`cleanup_old_synced`. -/

inductive DbOp where
  | insertOne (persistOk : RowInput → Bool) (now : ℤ) (x : RowInput)
  | insertMany (persistOk : RowInput → Bool) (now : ℤ) (xs : List RowInput)
  | mark (ids : List ℕ) (now : ℤ)
  | purge (nowT days : ℤ)

/-- The state transition of one operation. -/
def DbOp.apply : DbOp → Db → Db
  | .insertOne persistOk now x, db => (insert_reading persistOk now x db).1
  | .insertMany persistOk now xs, db => (insert_batch persistOk now xs db).1
  | .mark ids now, db => mark_as_synced ids now db
  | .purge nowT days, db => (cleanup_old_synced nowT days db).1

/-- The operation does not try to insert a row with id `i` (process-generated
ids are fresh UUIDs, never reused). -/
def DbOp.avoidsId (i : ℕ) : DbOp → Bool
  | .insertOne _ _ x => x.id != i
  | .insertMany _ _ xs => xs.all (fun x => x.id != i)
  | .mark _ _ => true
  | .purge _ _ => true

/-- Whether the operation is a `mark_as_synced`. -/
def DbOp.isMark : DbOp → Bool
  | .mark _ _ => true
  | _ => false

/-- A trace of operations applied in order. -/
def applyOps (ops : List DbOp) (db : Db) : Db :=
  ops.foldl (fun d op => op.apply d) db

/-- Every row carrying id `i` is marked synced (vacuously true if the id is
absent). -/
def idSynced (i : ℕ) (db : Db) : Prop :=
  ∀ r ∈ db, r.id = i → r.synced = true

instance (i : ℕ) (db : Db) : Decidable (idSynced i db) :=
  inferInstanceAs (Decidable (∀ r ∈ db, _ → _))

lemma insert_reading_cases (persistOk : RowInput → Bool) (now : ℤ) (x : RowInput) (db : Db) :
    (insert_reading persistOk now x db).1 = db ++ [x.toRow now] ∨
      (insert_reading persistOk now x db).1 = db := by
  unfold insert_reading insertRowStmt
  by_cases hc : persistOk x ∧ x.id ∉ rowIds db
  · rw [if_pos hc]
    exact Or.inl rfl
  · rw [if_neg hc]
    exact Or.inr rfl

lemma insert_batch_cases (persistOk : RowInput → Bool) (now : ℤ) (xs : List RowInput) (db : Db) :
    (insert_batch persistOk now xs db).1 = db ++ xs.map (·.toRow now) ∨
      (insert_batch persistOk now xs db).1 = db := by
  unfold insert_batch
  cases haux : insertBatchAux persistOk now xs db with
  | ok db2 => exact Or.inl (insertBatchAux_ok haux)
  | error e => exact Or.inr rfl

lemma idSynced_apply {i : ℕ} {db : Db} (op : DbOp)
    (h : idSynced i db) (hav : op.avoidsId i = true) : idSynced i (op.apply db) := by
  cases op with
  | insertOne persistOk now x =>
    simp only [DbOp.avoidsId, bne_iff_ne, ne_eq] at hav
    rcases insert_reading_cases persistOk now x db with hc | hc <;>
      rw [DbOp.apply, hc]
    · intro r hr hri
      rcases List.mem_append.mp hr with hold | hnew
      · exact h r hold hri
      · rw [List.mem_singleton.mp hnew] at hri
        exact absurd hri hav
    · exact h
  | insertMany persistOk now xs =>
    simp only [DbOp.avoidsId, List.all_eq_true, bne_iff_ne, ne_eq] at hav
    rcases insert_batch_cases persistOk now xs db with hc | hc <;>
      rw [DbOp.apply, hc]
    · intro r hr hri
      rcases List.mem_append.mp hr with hold | hnew
      · exact h r hold hri
      · obtain ⟨x, hx, hxr⟩ := List.mem_map.mp hnew
        rw [← hxr] at hri
        exact absurd hri (hav x hx)
    · exact h
  | mark ids now =>
    rw [DbOp.apply]
    intro r hr hri
    obtain ⟨s, hs, hsr⟩ := List.mem_map.mp hr
    by_cases hid : s.id ∈ ids
    · rw [← hsr]
      simp [markRow, hid]
    · rw [markRow, if_neg hid] at hsr
      rw [← hsr] at hri ⊢
      exact h s hs hri
  | purge nowT days =>
    rw [DbOp.apply]
    intro r hr hri
    exact h r (List.mem_filter.mp hr).1 hri

lemma idSynced_applyOps {i : ℕ} (ops : List DbOp) :
    ∀ {db : Db}, idSynced i db → (∀ op ∈ ops, op.avoidsId i = true) →
      idSynced i (applyOps ops db) := by
  induction ops with
  | nil => intro db h _; exact h
  | cons op ops ih =>
    intro db h hav
    rw [applyOps, List.foldl_cons]
    exact ih (idSynced_apply op h (hav op (List.mem_cons_self op ops)))
      fun o ho => hav o (List.mem_cons_of_mem _ ho)

/-- C2: `get_pending_sync` returns only rows whose sync state is pending,
ordered by gateway timestamp ascending, and at most `limit` of them; the
moment `mark_as_synced` commits, every row carrying a marked id is synced,
and along any further trace of the program's database operations (none of
which may re-insert a process-generated id) no row with that id ever
appears in a pending result again. -/
theorem get_pending_sync_contract :
    (∀ (limit : ℕ) (db : Db) (r : SensorRow),
      r ∈ get_pending_sync limit db → r.synced = false) ∧
    (∀ (limit : ℕ) (db : Db), List.Sorted tsLe (get_pending_sync limit db)) ∧
    (∀ (limit : ℕ) (db : Db), (get_pending_sync limit db).length ≤ limit) ∧
    (∀ (ids : List ℕ) (now : ℤ) (db : Db) (i : ℕ), i ∈ ids →
      idSynced i (mark_as_synced ids now db)) ∧
    (∀ (i : ℕ) (db : Db) (ops : List DbOp), idSynced i db →
      (∀ op ∈ ops, op.avoidsId i = true) →
      ∀ (limit : ℕ) (r : SensorRow), r ∈ get_pending_sync limit (applyOps ops db) → r.id ≠ i) := by
  refine ⟨fun limit db r h => (mem_get_pending_sync h).2,
    fun limit db => get_pending_sync_sorted limit db,
    fun limit db => get_pending_sync_length limit db,
    fun ids now db i hi r hr hri => ?_,
    fun i db ops h hav limit r hr hri => ?_⟩
  · obtain ⟨s, _, hsr⟩ := List.mem_map.mp hr
    by_cases hid : s.id ∈ ids
    · rw [← hsr]
      simp [markRow, hid]
    · rw [markRow, if_neg hid] at hsr
      rw [← hsr] at hri
      exact absurd (hri.symm ▸ hi) hid
  · have h2 := idSynced_applyOps ops h hav
    have h3 := mem_get_pending_sync hr
    have h4 := h2 r h3.1 hri
    rw [h4] at h3
    exact absurd h3.2 (by decide)

/-- Witness for C2 at concrete inputs: after marking id 1 synced, then
purging, then ingesting a fresh id, the fresh row found pending does not
carry a previously marked id, and is itself pending. -/
theorem get_pending_sync_contract_witness :
    ((mkInput 2 7).toRow 2).id ≠ 0 ∧ ((mkInput 2 7).toRow 2).synced = false :=
  ⟨get_pending_sync_contract.2.2.2.2 0
      [mkRow 0 5 true none, mkRow 1 6 false none]
      [DbOp.mark [1] 3, DbOp.purge 100 0, DbOp.insertOne (fun _ => true) 2 (mkInput 2 7)]
      (by decide) (by decide) 10 ((mkInput 2 7).toRow 2) (by decide),
    get_pending_sync_contract.1 10
      (applyOps [DbOp.mark [1] 3, DbOp.purge 100 0, DbOp.insertOne (fun _ => true) 2 (mkInput 2 7)]
        [mkRow 0 5 true none, mkRow 1 6 false none])
      ((mkInput 2 7).toRow 2) (by decide)⟩

/-! ## The reserved sync-attempt columns (C9) -/

/-- Counterexample to C9 as stated: `mark_as_synced` executes
`SET ..., last_sync_attempt = CURRENT_TIMESTAMP`, so that column does not
stay at its initial default — marking id 0 at time 7 moves it from `NULL`
to the timestamp. -/
theorem sync_attempt_columns_not_inert :
    (mark_as_synced [0] 7 [mkRow 0 5 false none]).map (·.lastSyncAttempt) = [some 7] ∧
      [mkRow 0 5 false none].map (·.lastSyncAttempt) = [none] := by
  decide

/-- C9 amended: `sync_attempts` really is inert — every database operation
of the program leaves it at its initial default 0 — and no operation reads
either column; but `last_sync_attempt` is written by `mark_as_synced`,
which sets it to the current timestamp on every row whose id is marked.
All other operations leave it untouched (inserts create it at its `NULL`
default). -/
theorem sync_attempt_columns_amended :
    (∀ (op : DbOp) (db : Db), (∀ r ∈ db, r.syncAttempts = 0) →
      ∀ r2 ∈ op.apply db, r2.syncAttempts = 0) ∧
    (∀ (op : DbOp), op.isMark = false → ∀ (db : Db) (r2 : SensorRow),
      r2 ∈ op.apply db → r2 ∈ db ∨ r2.lastSyncAttempt = none) ∧
    (∀ (ids : List ℕ) (now : ℤ) (r : SensorRow),
      (markRow ids now r).syncAttempts = r.syncAttempts ∧
        (markRow ids now r).lastSyncAttempt =
          if r.id ∈ ids then some now else r.lastSyncAttempt) := by
  refine ⟨fun op db h r2 hr2 => ?_, fun op hnm db r2 hr2 => ?_, fun ids now r => ?_⟩
  · cases op with
    | insertOne persistOk now x =>
      rcases insert_reading_cases persistOk now x db with hc | hc <;> rw [DbOp.apply, hc] at hr2
      · rcases List.mem_append.mp hr2 with hold | hnew
        · exact h r2 hold
        · rw [List.mem_singleton.mp hnew]
          rfl
      · exact h r2 hr2
    | insertMany persistOk now xs =>
      rcases insert_batch_cases persistOk now xs db with hc | hc <;> rw [DbOp.apply, hc] at hr2
      · rcases List.mem_append.mp hr2 with hold | hnew
        · exact h r2 hold
        · obtain ⟨x, _, hxr⟩ := List.mem_map.mp hnew
          rw [← hxr]
          rfl
      · exact h r2 hr2
    | mark ids now =>
      rw [DbOp.apply] at hr2
      obtain ⟨s, hs, hsr⟩ := List.mem_map.mp hr2
      rw [← hsr]
      have h2 : (markRow ids now s).syncAttempts = s.syncAttempts := by
        by_cases hid : s.id ∈ ids <;> simp [markRow, hid]
      rw [h2]
      exact h s hs
    | purge nowT days =>
      rw [DbOp.apply] at hr2
      exact h r2 (List.mem_filter.mp hr2).1
  · cases op with
    | insertOne persistOk now x =>
      rcases insert_reading_cases persistOk now x db with hc | hc <;> rw [DbOp.apply, hc] at hr2
      · rcases List.mem_append.mp hr2 with hold | hnew
        · exact Or.inl hold
        · rw [List.mem_singleton.mp hnew]
          exact Or.inr rfl
      · exact Or.inl hr2
    | insertMany persistOk now xs =>
      rcases insert_batch_cases persistOk now xs db with hc | hc <;> rw [DbOp.apply, hc] at hr2
      · rcases List.mem_append.mp hr2 with hold | hnew
        · exact Or.inl hold
        · obtain ⟨x, _, hxr⟩ := List.mem_map.mp hnew
          rw [← hxr]
          exact Or.inr rfl
      · exact Or.inl hr2
    | mark ids now => cases hnm
    | purge nowT days =>
      rw [DbOp.apply] at hr2
      exact Or.inl (List.mem_filter.mp hr2).1
  · by_cases hid : r.id ∈ ids <;> simp [markRow, hid]

/-- Witness for the amended C9 at concrete inputs. -/
theorem sync_attempt_columns_amended_witness :
    (markRow [0] 7 (mkRow 0 5 false none)).syncAttempts = 0 ∧
      (mkRow 1 1 false none ∈ [mkRow 1 1 false none] ∨
        (mkRow 1 1 false none).lastSyncAttempt = none) ∧
      (markRow [0] 7 (mkRow 0 5 false none)).lastSyncAttempt = if (0 : ℕ) ∈ [0] then some 7
        else (mkRow 0 5 false none).lastSyncAttempt :=
  ⟨sync_attempt_columns_amended.1 (DbOp.mark [0] 7) [mkRow 0 5 false none] (by decide)
      (markRow [0] 7 (mkRow 0 5 false none)) (by decide),
    sync_attempt_columns_amended.2.1 (DbOp.purge 0 1) (by decide) [mkRow 1 1 false none]
      (mkRow 1 1 false none) (by decide),
    (sync_attempt_columns_amended.2.2 [0] 7 (mkRow 0 5 false none)).2⟩

/-! ## Cloud synchroniser (`src/services/cloud_sync.rs`)

`CloudSync::sync_data` on the per-message MQTT transport, embedded after a
successfully initialised client: the outcome of each individual
`send_to_cloud_mqtt` dispatch is supplied by the oracle `dispatchOk`. -/

/-- The `failed_ids` vector accumulated by the dispatch loop. -/
def failedIds (dispatchOk : SensorRow → Bool) (pending : List SensorRow) : List ℕ :=
  (pending.filter (fun r => !dispatchOk r)).map (·.id)

/-- The `sent_count` counter accumulated by the dispatch loop. -/
def sentCount (dispatchOk : SensorRow → Bool) (pending : List SensorRow) : ℕ :=
  (pending.filter (fun r => dispatchOk r)).length

/-- The `successful_ids` vector: fetched records whose id is not among the
failed ids. -/
def successfulIds (dispatchOk : SensorRow → Bool) (pending : List SensorRow) : List ℕ :=
  (pending.filter (fun r => !(failedIds dispatchOk pending).contains r.id)).map (·.id)

/-- `CloudSync::sync_data`: fetch up to `batchSize` pending records (empty
fetch is a no-op success); dispatch each record individually; if anything
was sent, mark exactly the successful ids synced; return failure iff some
message failed. -/
def sync_data (dispatchOk : SensorRow → Bool) (batchSize : ℕ) (now : ℤ) (db : Db) :
    Db × Bool :=
  let pending := get_pending_sync batchSize db
  if pending.isEmpty then (db, true)
  else
    (if 0 < sentCount dispatchOk pending then
      mark_as_synced (successfulIds dispatchOk pending) now db
    else db,
      (failedIds dispatchOk pending).isEmpty)

lemma mem_failedIds_iff {dispatchOk : SensorRow → Bool} {pending : List SensorRow}
    (hnd : (pending.map (·.id)).Nodup) {p : SensorRow} (hp : p ∈ pending) :
    p.id ∈ failedIds dispatchOk pending ↔ dispatchOk p = false := by
  constructor
  · intro h
    obtain ⟨q, hq, hqp⟩ := List.mem_map.mp h
    have hq2 := List.mem_filter.mp hq
    have : q = p := List.inj_on_of_nodup_map hnd hq2.1 hp hqp
    rw [← this]
    simpa using hq2.2
  · intro h
    exact List.mem_map_of_mem _ (List.mem_filter.mpr ⟨hp, by simp [h]⟩)

lemma mem_successfulIds_iff {dispatchOk : SensorRow → Bool} {pending : List SensorRow}
    (hnd : (pending.map (·.id)).Nodup) (n : ℕ) :
    n ∈ successfulIds dispatchOk pending ↔
      n ∈ (pending.filter (fun r => dispatchOk r)).map (·.id) := by
  constructor
  · intro h
    obtain ⟨p, hp, hpn⟩ := List.mem_map.mp h
    have hp2 := List.mem_filter.mp hp
    have hnotf : p.id ∉ failedIds dispatchOk pending := by
      intro hc
      have := hp2.2
      simp at this
      exact this hc
    have hok : dispatchOk p = true := by
      rcases Bool.eq_false_or_eq_true (dispatchOk p) with ht | hf
      · exact ht
      · exact absurd ((mem_failedIds_iff hnd hp2.1).mpr hf) hnotf
    exact hpn ▸ List.mem_map_of_mem _ (List.mem_filter.mpr ⟨hp2.1, hok⟩)
  · intro h
    obtain ⟨p, hp, hpn⟩ := List.mem_map.mp h
    have hp2 := List.mem_filter.mp hp
    have hnotf : p.id ∉ failedIds dispatchOk pending := by
      intro hc
      rw [(mem_failedIds_iff hnd hp2.1).mp hc] at hp2
      exact absurd hp2.2 (by decide)
    exact hpn ▸ List.mem_map_of_mem _
      (List.mem_filter.mpr ⟨hp2.1, by simp [hnotf]⟩)

/-- C1: in a cycle on the per-message transport that fetches a non-empty
set of pending records, exactly the rows whose id was dispatched
successfully are marked synced (and stamped with the attempt time), every
other row — in particular every failed record — is left untouched and
still pending, and the cycle reports failure iff at least one message
failed, with the successful subset durably marked in that same state. -/
theorem sync_data_partial_success (dispatchOk : SensorRow → Bool) (batchSize : ℕ)
    (now : ℤ) (db : Db) (hnodup : (rowIds db).Nodup)
    (hne : get_pending_sync batchSize db ≠ []) :
    (sync_data dispatchOk batchSize now db).1 =
      db.map (fun r =>
        if r.id ∈ ((get_pending_sync batchSize db).filter (fun p => dispatchOk p)).map (·.id)
        then { r with synced := true, lastSyncAttempt := some now } else r) ∧
    ((sync_data dispatchOk batchSize now db).2 = false ↔
      ∃ r ∈ get_pending_sync batchSize db, dispatchOk r = false) ∧
    (∀ r ∈ get_pending_sync batchSize db, dispatchOk r = false →
      r ∈ (sync_data dispatchOk batchSize now db).1 ∧ r.synced = false) := by
  have hnd : ((get_pending_sync batchSize db).map (·.id)).Nodup :=
    get_pending_sync_ids_nodup hnodup batchSize
  have hpe : ¬((get_pending_sync batchSize db).isEmpty = true) := by
    simp [List.isEmpty_iff, hne]
  have hsd : sync_data dispatchOk batchSize now db =
      (if 0 < sentCount dispatchOk (get_pending_sync batchSize db) then
        mark_as_synced (successfulIds dispatchOk (get_pending_sync batchSize db)) now db
      else db,
        (failedIds dispatchOk (get_pending_sync batchSize db)).isEmpty) := by
    rw [sync_data, if_neg hpe]
  have h1 : (sync_data dispatchOk batchSize now db).1 =
      db.map (fun r =>
        if r.id ∈ ((get_pending_sync batchSize db).filter (fun p => dispatchOk p)).map (·.id)
        then { r with synced := true, lastSyncAttempt := some now } else r) := by
    rw [hsd]
    by_cases hs : 0 < sentCount dispatchOk (get_pending_sync batchSize db)
    · rw [if_pos hs]
      refine List.map_congr_left fun r _ => ?_
      rw [markRow]
      by_cases hmem :
        r.id ∈ ((get_pending_sync batchSize db).filter (fun p => dispatchOk p)).map (·.id)
      · rw [if_pos ((mem_successfulIds_iff hnd _).mpr hmem), if_pos hmem]
      · rw [if_neg (fun hc => hmem ((mem_successfulIds_iff hnd _).mp hc)), if_neg hmem]
    · rw [if_neg hs]
      have hz : (get_pending_sync batchSize db).filter (fun r => dispatchOk r) = [] := by
        have := Nat.not_lt.mp hs
        rw [sentCount] at this
        exact List.length_eq_zero.mp (Nat.le_zero.mp this)
      simp [hz]
  refine ⟨h1, ?_, ?_⟩
  · rw [hsd]
    simp only [failedIds]
    constructor
    · intro h
      have hne2 : (get_pending_sync batchSize db).filter (fun r => !dispatchOk r) ≠ [] := by
        intro hc
        simp [hc] at h
      obtain ⟨q, hq⟩ := List.exists_mem_of_ne_nil _ hne2
      have hq2 := List.mem_filter.mp hq
      exact ⟨q, hq2.1, by simpa using hq2.2⟩
    · intro ⟨r, hr, hrf⟩
      have : r ∈ (get_pending_sync batchSize db).filter (fun r => !dispatchOk r) :=
        List.mem_filter.mpr ⟨hr, by simp [hrf]⟩
      rcases hmap : ((get_pending_sync batchSize db).filter (fun r => !dispatchOk r)).map (·.id)
        with _ | _
      · exact absurd (List.mem_map_of_mem (·.id) this) (by simp [hmap])
      · simp [hmap]
  · intro r hr hrf
    refine ⟨?_, (mem_get_pending_sync hr).2⟩
    have hnmem :
        r.id ∉ ((get_pending_sync batchSize db).filter (fun p => dispatchOk p)).map (·.id) := by
      intro hc
      obtain ⟨p, hp, hpn⟩ := List.mem_map.mp hc
      have hp2 := List.mem_filter.mp hp
      have : p = r := List.inj_on_of_nodup_map hnd hp2.1 hr hpn
      rw [this] at hp2
      rw [hrf] at hp2
      exact absurd hp2.2 (by decide)
    rw [h1]
    refine List.mem_map.mpr ⟨r, (mem_get_pending_sync hr).1, ?_⟩
    rw [if_neg hnmem]

/-- Witness for C1 at concrete inputs: three rows, two pending; the
message for id 1 fails dispatch, id 0 succeeds — the cycle reports
failure, yet row 1 is still present pending. -/
theorem sync_data_partial_success_witness :
    (sync_data (fun r => r.id != 1) 5 9
        [mkRow 0 10 false none, mkRow 1 20 false none, mkRow 2 30 true none]).2 = false ∧
      mkRow 1 20 false none ∈ (sync_data (fun r => r.id != 1) 5 9
        [mkRow 0 10 false none, mkRow 1 20 false none, mkRow 2 30 true none]).1 :=
  ⟨(sync_data_partial_success (fun r => r.id != 1) 5 9
      [mkRow 0 10 false none, mkRow 1 20 false none, mkRow 2 30 true none]
      (by decide) (by decide)).2.1.mpr ⟨mkRow 1 20 false none, by decide, by decide⟩,
    ((sync_data_partial_success (fun r => r.id != 1) 5 9
      [mkRow 0 10 false none, mkRow 1 20 false none, mkRow 2 30 true none]
      (by decide) (by decide)).2.2 (mkRow 1 20 false none) (by decide) (by decide)).1⟩

/-! ## Health endpoint (`src/handlers/health.rs`) -/

/-- The JSON body built by `health_check`, with its top-level `status`,
the component statuses and the `pending_sync` metric. -/
structure HealthResponse where
  status : String
  gatewayId : String
  databaseComponent : String
  edgeProcessorComponent : String
  cloudSyncComponent : String
  pendingSync : ℤ
deriving DecidableEq

/-- `health_check`: the handler's infallible body.  `countPending` is the
outcome of `Database::count_pending_sync` on the current state (the
handler performs the query twice against the same state: once for the
component status, once, with `unwrap_or(-1)`, for the metric). -/
def health_check (gatewayId : String) (countPending : Except String ℤ) : HealthResponse :=
  let dbStatus :=
    match countPending with
    | .ok _ => "healthy"
    | .error _ => "unhealthy"
  let pendingSync :=
    match countPending with
    | .ok n => n
    | .error _ => -1
  { status := "ok", gatewayId := gatewayId, databaseComponent := dbStatus,
    edgeProcessorComponent := "healthy", cloudSyncComponent := "healthy",
    pendingSync := pendingSync }

/-- C10: the health endpoint is total and always reports top-level status
"ok"; a database failure surfaces only as component status "unhealthy"
together with a pending count of −1, and a healthy database yields
"healthy" with the true pending count. -/
theorem health_check_always_ok (gatewayId : String) (countPending : Except String ℤ) :
    (health_check gatewayId countPending).status = "ok" ∧
      (∀ e, countPending = .error e →
        (health_check gatewayId countPending).databaseComponent = "unhealthy" ∧
          (health_check gatewayId countPending).pendingSync = -1) ∧
      (∀ n, countPending = .ok n →
        (health_check gatewayId countPending).databaseComponent = "healthy" ∧
          (health_check gatewayId countPending).pendingSync = n) := by
  refine ⟨rfl, fun e he => ?_, fun n hn => ?_⟩
  · subst he
    exact ⟨rfl, rfl⟩
  · subst hn
    exact ⟨rfl, rfl⟩

/-- Witness for C10 at concrete inputs: a failing database query still
yields status "ok", with the unhealthy component and −1 pending count. -/
theorem health_check_always_ok_witness :
    (health_check "gw-01" (.error "db down")).status = "ok" ∧
      (health_check "gw-01" (.error "db down")).databaseComponent = "unhealthy" ∧
      (health_check "gw-01" (.error "db down")).pendingSync = -1 :=
  ⟨(health_check_always_ok "gw-01" (.error "db down")).1,
    ((health_check_always_ok "gw-01" (.error "db down")).2.1 "db down" rfl).1,
    ((health_check_always_ok "gw-01" (.error "db down")).2.1 "db down" rfl).2⟩

end EnvEdgeGateway
